import Mathlib

/-!
Shallow embedding of the presence-aware delivery and acknowledgment core of
the groupChatBackend repository: the presence registry (`onlineUsers` map in
src/socket.js), the duplicate-suppression cache and group send path
(src/controllers/group.controller.js), the direct send / history / mark-read
controller (src/controllers/chat.controller.js), and the acknowledgment
handlers (src/socket.js).  JS `Map`s are modelled as association lists in
insertion order; Mongo documents as a list store; timestamps as `Nat`
milliseconds.
-/

namespace GroupChat

abbrev UserId := String
abbrev SocketId := String

/-- Coarse message status, `status ∈ {sent, delivered, read}` in the
Message schema (src/models/Message.js). -/
inductive Status where
  | sent
  | delivered
  | read
deriving DecidableEq

/-- Position of a status along the `sent → delivered → read` chain. -/
def Status.rank : Status → Nat
  | .sent => 0
  | .delivered => 1
  | .read => 2

/-- One entry of `deliveredTo` / `readBy`: `{userId, deliveredAt/readAt}`. -/
structure Ack where
  userId : UserId
  ackAt : Nat
deriving DecidableEq

/-- A persisted message document (src/models/Message.js), with `id`
modelling the Mongo `_id`. -/
structure Message where
  id : Nat
  senderId : UserId
  receiverId : Option UserId
  groupId : Option String
  message : String
  status : Status
  deliveredTo : List Ack
  readBy : List Ack
  createdAt : Nat
deriving DecidableEq

/-- The `onlineUsers` JS `Map` of src/socket.js: userId → socket id,
as an association list in insertion order. -/
abbrev Registry := List (UserId × SocketId)

/-- JS `Map.set k v`: overwrite in place if the key exists, else append. -/
def setKey (k : UserId) (v : SocketId) : Registry → Registry
  | [] => [(k, v)]
  | (k₂, v₂) :: rest => if k₂ = k then (k, v) :: rest else (k₂, v₂) :: setKey k v rest

/-- JS `Map.get k`: first entry with the key, if any. -/
def lookupKey (k : UserId) : Registry → Option SocketId
  | [] => none
  | (k₂, v₂) :: rest => if k₂ = k then some v₂ else lookupKey k rest

/-- The `disconnect` handler's registry effect (src/socket.js:161-168):
iterate over the map entries in order, delete the first whose value is the
disconnecting socket id, and `break`. -/
def disconnectRemove (h : SocketId) : Registry → Registry
  | [] => []
  | (k, v) :: rest => if v = h then rest else (k, v) :: disconnectRemove h rest

/-- The `messageCache` JS `Map` of group.controller.js: cache key → last
send timestamp (ms). -/
abbrev Cache := List (String × Nat)

/-- JS `Map.get` on the suppression cache. -/
def lookupCache (k : String) : Cache → Option Nat
  | [] => none
  | (k₂, v₂) :: rest => if k₂ = k then some v₂ else lookupCache k rest

/-- JS `Map.set` on the suppression cache. -/
def setCache (k : String) (v : Nat) : Cache → Cache
  | [] => [(k, v)]
  | (k₂, v₂) :: rest => if k₂ = k then (k, v) :: rest else (k₂, v₂) :: setCache k v rest

/-- The duplicate cache key `"senderId:groupId:message"`
(group.controller.js:350). -/
def mkCacheKey (senderId groupId body : String) : String :=
  senderId ++ ":" ++ groupId ++ ":" ++ body

/-- The duplicate-suppression step of `sendGroupMessage`
(group.controller.js:351-359): if a prior timestamp exists and
`now - prior < 3000` the request is ignored — returning early, before the
`messageCache.set` line — otherwise the timestamp is recorded and the send
proceeds.  Returns (suppressed?, cache afterwards). -/
def shouldSuppress (cache : Cache) (key : String) (now : Nat) : Bool × Cache :=
  match lookupCache key cache with
  | some last =>
      if (now : Int) - (last : Int) < 3000 then (true, cache)
      else (false, setCache key now cache)
  | none => (false, setCache key now cache)

/-- Whole-server state touched by the modelled handlers: the presence map,
the suppression cache, the message store, the group membership collection
and the next fresh message id. -/
structure ServerState where
  onlineUsers : Registry
  messageCache : Cache
  groups : List (String × List UserId)
  store : List Message
  nextId : Nat
deriving DecidableEq

/-- Member list of a group in the Group collection (empty if absent). -/
def groupMembers (st : ServerState) (groupId : String) : List UserId :=
  match st.groups.find? (fun g => g.1 = groupId) with
  | some g => g.2
  | none => []

/-- Direct send, `exports.sendMessage` (chat.controller.js:85-161): after
validation, status is `delivered` iff the receiver has a live socket, and
the message is persisted; there is no duplicate-suppression check on this
path. -/
def sendMessage (senderId receiverId body : String) (now : Nat) (st : ServerState) :
    ServerState :=
  if receiverId = "" ∨ body = "" then st
  else
    let status := match lookupKey receiverId st.onlineUsers with
      | some _ => Status.delivered
      | none => Status.sent
    { st with
        store := st.store ++
          [{ id := st.nextId, senderId := senderId, receiverId := some receiverId,
             groupId := none, message := body, status := status,
             deliveredTo := [], readBy := [], createdAt := now }],
        nextId := st.nextId + 1 }

/-- The `deliveredTo` list built by `sendGroupMessage`
(group.controller.js:363-370): iterate over the whole `onlineUsersMap` and
push `{userId, deliveredAt: now}` for every entry whose userId differs from
the sender — group membership is never consulted here. -/
def groupDeliveredTo (reg : Registry) (senderId : UserId) (now : Nat) : List Ack :=
  reg.filterMap (fun p => if p.1 ≠ senderId then some (⟨p.1, now⟩ : Ack) else none)

/-- Group send, `exports.sendGroupMessage` (group.controller.js:337-449):
after validation and the duplicate check, the message is persisted with
`deliveredTo` from `groupDeliveredTo` and status `delivered` iff that list
is non-empty. -/
def sendGroupMessage (senderId groupId body : String) (now : Nat) (st : ServerState) :
    ServerState :=
  if groupId = "" ∨ body = "" then st
  else
    let key := mkCacheKey senderId groupId body
    let res := shouldSuppress st.messageCache key now
    if res.1 then { st with messageCache := res.2 }
    else
      let deliveredTo := groupDeliveredTo st.onlineUsers senderId now
      let status := if deliveredTo.length > 0 then Status.delivered else Status.sent
      { st with
          messageCache := res.2,
          store := st.store ++
            [{ id := st.nextId, senderId := senderId, receiverId := none,
               groupId := some groupId, message := body, status := status,
               deliveredTo := deliveredTo, readBy := [], createdAt := now }],
          nextId := st.nextId + 1 }

/-- Per-message effect of the `messageDelivered` socket handler
(src/socket.js:63-97): for a group message, push `(userId, now)` into
`deliveredTo` if absent and set status to `delivered` only when it is still
`sent`; for a direct message, advance `sent → delivered` only. -/
def messageDelivered (userId : UserId) (now : Nat) (m : Message) : Message :=
  match m.groupId with
  | some _ =>
      if m.deliveredTo.any (fun d => d.userId = userId) then m
      else { m with
              deliveredTo := m.deliveredTo ++ [⟨userId, now⟩],
              status := if m.status = .sent then .delivered else m.status }
  | none =>
      if m.status = .sent then { m with status := .delivered } else m

/-- Per-message effect of the `messageRead` socket handler
(src/socket.js:100-131): for a group message, push `(userId, now)` into
`readBy` if absent — the coarse `status` field is not touched on this
branch; for a direct message, set status to `read` unconditionally. -/
def messageRead (userId : UserId) (now : Nat) (m : Message) : Message :=
  match m.groupId with
  | some _ =>
      if m.readBy.any (fun r => r.userId = userId) then m
      else { m with readBy := m.readBy ++ [⟨userId, now⟩] }
  | none => { m with status := .read }

/-- Per-message effect of `markAsRead` (chat.controller.js:169-176) and the
`markMessagesRead` socket handler (src/socket.js:137-144): every message of
the direct pair whose status is not `read` is set to `read`. -/
def markConversationRead (senderId receiverId : UserId) (m : Message) : Message :=
  if m.senderId = senderId ∧ m.receiverId = some receiverId ∧ m.status ≠ .read
  then { m with status := .read } else m

/-- Per-message effect of the non-blocking side update of a direct history
fetch (chat.controller.js:49-57): a fetched message addressed to the
requester that is still `sent` is advanced to `delivered`. -/
def historyDeliver (requesterId : UserId) (m : Message) : Message :=
  if m.receiverId = some requesterId ∧ m.status = .sent
  then { m with status := .delivered } else m

/-- The status-mutating operations of the acknowledgment subsystem. -/
inductive Op where
  | ackDelivered (userId : UserId) (now : Nat)
  | ackRead (userId : UserId) (now : Nat)
  | markRead (senderId receiverId : UserId)
  | historyFetch (requesterId : UserId)

/-- Apply one acknowledgment-subsystem operation to a message. -/
def applyOp (m : Message) : Op → Message
  | .ackDelivered u now => messageDelivered u now m
  | .ackRead u now => messageRead u now m
  | .markRead s r => markConversationRead s r m
  | .historyFetch r => historyDeliver r m

/-- A `messageStatusUpdate` event emitted to the sender's socket
(src/socket.js:87-90 and 121-124). -/
structure StatusEvent where
  toSocket : SocketId
  messageId : Nat
  status : Status
deriving DecidableEq

/-- The full `messageDelivered` socket handler (src/socket.js:63-97): look
the message up by id (silent no-op when absent), apply the per-message
delivered update, then — whether or not the update changed anything —
notify the sender's socket, if online, with the literal status
`"delivered"`. -/
def messageDeliveredHandler (st : ServerState) (messageId : Nat) (userId : UserId)
    (now : Nat) : ServerState × Option StatusEvent :=
  match st.store.find? (fun m => m.id = messageId) with
  | none => (st, none)
  | some m =>
      let store' := st.store.map
        (fun x => if x.id = messageId then messageDelivered userId now x else x)
      let st' := { st with store := store' }
      match lookupKey m.senderId st.onlineUsers with
      | some sock => (st', some ⟨sock, messageId, .delivered⟩)
      | none => (st', none)

/-- The full `messageRead` socket handler (src/socket.js:100-131): look the
message up by id (silent no-op when absent), apply the per-message read
update, then notify the sender's socket, if online, with the literal status
`"read"`. -/
def messageReadHandler (st : ServerState) (messageId : Nat) (userId : UserId)
    (now : Nat) : ServerState × Option StatusEvent :=
  match st.store.find? (fun m => m.id = messageId) with
  | none => (st, none)
  | some m =>
      let store' := st.store.map
        (fun x => if x.id = messageId then messageRead userId now x else x)
      let st' := { st with store := store' }
      match lookupKey m.senderId st.onlineUsers with
      | some sock => (st', some ⟨sock, messageId, .read⟩)
      | none => (st', none)

/-- Insert a message into a list kept newest-first by `createdAt`. -/
def insertDesc (m : Message) : List Message → List Message
  | [] => [m]
  | x :: xs => if x.createdAt ≤ m.createdAt then m :: x :: xs else x :: insertDesc m xs

/-- The storage collaborator's `sort(\x7bcreatedAt: -1\x7d)`: the matched
messages ordered newest-first. -/
def sortDesc : List Message → List Message
  | [] => []
  | x :: xs => insertDesc x (sortDesc xs)

/-- The body of a paginated history response: `messages` plus the
`pagination` object. -/
structure FetchResponse where
  messages : List Message
  currentPage : Nat
  totalPages : Nat
  totalMessages : Nat
  hasMore : Bool
deriving DecidableEq

/-- Whether a message matches the direct-pair query of `getMessages`
(chat.controller.js:23-29): either orientation of the (requester, other)
pair, and no `groupId` field. -/
def directPairMatch (a b : UserId) (m : Message) : Bool :=
  ((m.senderId = a ∧ m.receiverId = some b) ∨
   (m.senderId = b ∧ m.receiverId = some a)) ∧ m.groupId = none

/-- The returned page of a history query: the matched messages sorted
newest-first, the `skip = (page-1)*limit` / `limit` slice taken, then
reversed to oldest-first (chat.controller.js:34-46,
group.controller.js:289-306). -/
def pageSlice (l : List Message) (page limit : Nat) : List Message :=
  (((sortDesc l).drop ((page - 1) * limit)).take limit).reverse

/-- The page returned by the direct-pair history fetch. -/
def historyPage (st : ServerState) (requesterId otherId : UserId)
    (page limit : Nat) : List Message :=
  pageSlice (st.store.filter (directPairMatch requesterId otherId)) page limit

/-- The ids collected by `getMessages` for its delivery side update
(chat.controller.js:49-51): fetched page messages addressed to the
requester that are still `sent`. -/
def historyUndeliveredIds (st : ServerState) (requesterId otherId : UserId)
    (page limit : Nat) : List Nat :=
  ((historyPage st requesterId otherId page limit).filter
    (fun m => m.receiverId = some requesterId ∧ m.status = Status.sent)).map (·.id)

/-- The store after `getMessages`'s bulk update
(chat.controller.js:53-57): `updateMany` on the collected ids, guarded by
`status: "sent"`, setting `status: "delivered"`. -/
def historyStoreUpdate (st : ServerState) (requesterId otherId : UserId)
    (page limit : Nat) : List Message :=
  st.store.map (fun m =>
    if m.id ∈ historyUndeliveredIds st requesterId otherId page limit ∧
        m.status = Status.sent
    then { m with status := Status.delivered } else m)

/-- Direct history fetch, `exports.getMessages` (chat.controller.js:13-82):
count and page query over the direct-pair selector, newest-first with
skip/limit then reversed; as a side effect, fetched messages addressed to
the requester still in `sent` are bulk-advanced to `delivered`.  The code
runs no timeout race — the `timedOut` flag, which models whether the
storage operations outran a latency budget, is ignored and the completed
result is returned regardless. -/
def getMessages (st : ServerState) (requesterId otherId : UserId)
    (page limit : Nat) (timedOut : Bool) : FetchResponse × ServerState :=
  let _ := timedOut
  let total := (st.store.filter (directPairMatch requesterId otherId)).length
  let reversed := historyPage st requesterId otherId page limit
  (⟨reversed, page, (total + limit - 1) / limit, total,
     decide ((page - 1) * limit + reversed.length < total)⟩,
   { st with store := historyStoreUpdate st requesterId otherId page limit })

/-- Group history fetch, `exports.getGroupMessages`
(group.controller.js:274-334): the count/page queries are raced against a
3000 ms timeout (plus per-query `maxTimeMS`); when the storage operations
do not complete in time (`timedOut`), the catch branch answers with a
successful empty page — zero messages, `totalMessages` 0, `hasMore` false —
instead of an error.  The handler never writes to the store. -/
def getGroupMessages (st : ServerState) (groupId : String)
    (page limit : Nat) (timedOut : Bool) : FetchResponse × ServerState :=
  if timedOut then (⟨[], page, 0, 0, false⟩, st)
  else
    let total := (st.store.filter (fun m => m.groupId = some groupId)).length
    let reversed := pageSlice (st.store.filter (fun m => m.groupId = some groupId)) page limit
    (⟨reversed, page, (total + limit - 1) / limit, total,
       decide ((page - 1) * limit + reversed.length < total)⟩, st)

/-! ### Helper lemmas -/

theorem Status.rank_le_two (s : Status) : s.rank ≤ 2 := by
  cases s <;> decide

/-- Every acknowledgment-subsystem operation can only keep or raise the
coarse status of a message. -/
theorem applyOp_rank_le (m : Message) (op : Op) :
    m.status.rank ≤ (applyOp m op).status.rank := by
  cases op with
  | ackDelivered u now =>
      unfold applyOp messageDelivered
      cases m.groupId with
      | some g =>
          by_cases hd : m.deliveredTo.any (fun d => d.userId = u)
          · simp [hd]
          · simp only [hd]
            cases hs : m.status <;> simp_all [Status.rank]
      | none =>
          by_cases hs : m.status = .sent
          · simp [hs, Status.rank]
          · simp [hs]
  | ackRead u now =>
      unfold applyOp messageRead
      cases m.groupId with
      | some g =>
          by_cases hr : m.readBy.any (fun r => r.userId = u)
          · simp [hr]
          · simp [hr]
      | none => simpa using Status.rank_le_two m.status
  | markRead s r =>
      unfold applyOp markConversationRead
      by_cases hc : m.senderId = s ∧ m.receiverId = some r ∧ m.status ≠ .read
      · simpa [hc] using Status.rank_le_two m.status
      · simp [hc]
  | historyFetch r =>
      unfold applyOp historyDeliver
      by_cases hc : m.receiverId = some r ∧ m.status = Status.sent
      · simp [hc, hc.2, Status.rank]
      · simp [hc]

theorem lookupCache_setCache (c : Cache) (k : String) (v : Nat) :
    lookupCache k (setCache k v c) = some v := by
  induction c with
  | nil => simp [setCache, lookupCache]
  | cons p rest ih =>
      by_cases hp : p.1 = k
      · simp [setCache, lookupCache, hp]
      · simp [setCache, lookupCache, hp, ih]

theorem mem_insertDesc {x m : Message} {l : List Message} (h : x ∈ insertDesc m l) :
    x = m ∨ x ∈ l := by
  induction l with
  | nil => simpa [insertDesc] using h
  | cons y ys ih =>
      unfold insertDesc at h
      by_cases hc : y.createdAt ≤ m.createdAt
      · simp only [hc, if_true] at h
        rcases List.mem_cons.mp h with rfl | h₂
        · exact Or.inl rfl
        · exact Or.inr h₂
      · simp only [hc, if_false] at h
        rcases List.mem_cons.mp h with rfl | h₂
        · exact Or.inr (List.mem_cons_self _ _)
        · rcases ih h₂ with rfl | h₃
          · exact Or.inl rfl
          · exact Or.inr (List.mem_cons_of_mem _ h₃)

theorem mem_sortDesc {x : Message} {l : List Message} (h : x ∈ sortDesc l) : x ∈ l := by
  induction l with
  | nil => simp [sortDesc] at h
  | cons y ys ih =>
      unfold sortDesc at h
      rcases mem_insertDesc h with rfl | h₂
      · exact List.mem_cons_self _ _
      · exact List.mem_cons_of_mem _ (ih h₂)

theorem insertDesc_pairwise {m : Message} {l : List Message}
    (h : l.Pairwise (fun a b => b.createdAt ≤ a.createdAt)) :
    (insertDesc m l).Pairwise (fun a b => b.createdAt ≤ a.createdAt) := by
  induction l with
  | nil => simp [insertDesc]
  | cons y ys ih =>
      rcases List.pairwise_cons.mp h with ⟨hy, hys⟩
      unfold insertDesc
      by_cases hc : y.createdAt ≤ m.createdAt
      · simp only [hc, if_true]
        refine List.pairwise_cons.mpr ⟨?_, h⟩
        intro z hz
        rcases List.mem_cons.mp hz with rfl | hz₂
        · exact hc
        · exact le_trans (hy z hz₂) hc
      · simp only [hc, if_false]
        refine List.pairwise_cons.mpr ⟨?_, ih hys⟩
        intro z hz
        rcases mem_insertDesc hz with rfl | hz₂
        · exact le_of_lt (lt_of_not_le hc)
        · exact hy z hz₂

theorem sortDesc_pairwise (l : List Message) :
    (sortDesc l).Pairwise (fun a b => b.createdAt ≤ a.createdAt) := by
  induction l with
  | nil => simp [sortDesc]
  | cons y ys ih => exact insertDesc_pairwise ih

theorem forall2_map_self {α : Type} {R : α → α → Prop} (f : α → α) (l : List α)
    (h : ∀ m ∈ l, R m (f m)) : List.Forall₂ R l (l.map f) := by
  induction l with
  | nil => exact List.Forall₂.nil
  | cons x xs ih =>
      exact List.Forall₂.cons (h x (List.mem_cons_self _ _))
        (ih (fun m hm => h m (List.mem_cons_of_mem _ hm)))

theorem eq_of_id_eq {l : List Message} (hids : l.Pairwise (fun x y => x.id ≠ y.id))
    {x y : Message} (hx : x ∈ l) (hy : y ∈ l) (hxy : x.id = y.id) : x = y := by
  by_contra hne
  exact List.Pairwise.forall (fun a b hab => Ne.symm hab) hids hx hy hne hxy

theorem shouldSuppress_none (c : Cache) (k : String) (n : Nat)
    (hl : lookupCache k c = none) :
    shouldSuppress c k n = (false, setCache k n c) := by
  unfold shouldSuppress
  rw [hl]

theorem shouldSuppress_some (c : Cache) (k : String) (n last : Nat)
    (hl : lookupCache k c = some last) :
    shouldSuppress c k n
      = if (n : Int) - (last : Int) < 3000 then (true, c)
        else (false, setCache k n c) := by
  unfold shouldSuppress
  rw [hl]

theorem shouldSuppress_false_cache (c : Cache) (k : String) (n : Nat)
    (h : (shouldSuppress c k n).1 = false) :
    (shouldSuppress c k n).2 = setCache k n c := by
  cases hl : lookupCache k c with
  | none => rw [shouldSuppress_none c k n hl]
  | some last =>
      rw [shouldSuppress_some c k n last hl] at h ⊢
      by_cases hw : (n : Int) - (last : Int) < 3000
      · rw [if_pos hw] at h
        cases h
      · rw [if_neg hw]

/-- A suppressed group send mutates neither the store nor anything but the
cache field (and the cache is handed back from `shouldSuppress`). -/
theorem sendGroupMessage_suppressed_store (st : ServerState) (s g b : String) (now : Nat)
    (hsup : (shouldSuppress st.messageCache (mkCacheKey s g b) now).1 = true) :
    (sendGroupMessage s g b now st).store = st.store := by
  by_cases hval : g = "" ∨ b = ""
  · simp [sendGroupMessage, hval]
  · simp [sendGroupMessage, hval, hsup]

/-- An allowed (non-suppressed) group send appends exactly one message and
records the key's timestamp. -/
theorem sendGroupMessage_allowed (st : ServerState) (s g b : String) (now : Nat)
    (hg : g ≠ "") (hb : b ≠ "")
    (hsup : (shouldSuppress st.messageCache (mkCacheKey s g b) now).1 = false) :
    (sendGroupMessage s g b now st).store.length = st.store.length + 1 ∧
    (sendGroupMessage s g b now st).messageCache
      = setCache (mkCacheKey s g b) now st.messageCache := by
  have hc2 := shouldSuppress_false_cache st.messageCache (mkCacheKey s g b) now hsup
  constructor
  · simp [sendGroupMessage, hg, hb, hsup]
  · simp [sendGroupMessage, hg, hb, hsup, hc2]

/-! ### Claim theorems -/

/-- C1: for every message and every sequence of acknowledgment-subsystem
operations (delivered acks, read acks, conversation mark-read, history-fetch
side updates), the coarse status only moves forward along
`sent → delivered → read` and never regresses. -/
theorem statusMonotone (m : Message) (ops : List Op) :
    m.status.rank ≤ (ops.foldl applyOp m).status.rank := by
  induction ops generalizing m with
  | nil => exact le_refl _
  | cons op ops ih =>
      exact le_trans (applyOp_rank_le m op) (ih (applyOp m op))

/-- C9: a disconnect removes at most one presence-registry entry, and only
one whose stored handle equals the disconnecting handle: either no entry
matches and the registry is returned unchanged, or the registry splits
around the first matching entry, which is the only one removed — every
entry before it does not match and everything else is preserved in place. -/
theorem disconnectRemove_spec (reg : Registry) (h : SocketId) :
    (disconnectRemove h reg = reg ∧ ∀ e ∈ reg, e.2 ≠ h)
    ∨ (∃ pre u post, reg = pre ++ (u, h) :: post ∧
        disconnectRemove h reg = pre ++ post ∧ ∀ e ∈ pre, e.2 ≠ h) := by
  induction reg with
  | nil => exact Or.inl ⟨rfl, by simp⟩
  | cons e rest ih =>
      obtain ⟨k, v⟩ := e
      by_cases hv : v = h
      · exact Or.inr ⟨[], k, rest, by simp [hv], by simp [disconnectRemove, hv], by simp⟩
      · rcases ih with ⟨heq, hall⟩ | ⟨pre, u, post, hsplit, heq, hpre⟩
        · refine Or.inl ⟨by simp [disconnectRemove, hv, heq], ?_⟩
          intro e he
          rcases List.mem_cons.mp he with rfl | he₂
          · exact hv
          · exact hall e he₂
        · refine Or.inr ⟨(k, v) :: pre, u, post, by simp [hsplit], ?_, ?_⟩
          · simp [disconnectRemove, hv, heq]
          · intro e he
            rcases List.mem_cons.mp he with rfl | he₂
            · exact hv
            · exact hpre e he₂

/-- C8 (amended): `shouldSuppress` records `key ↦ now` only when it returns
false (send allowed); when it returns true (suppressed) the early return
skips the `messageCache.set` line and the map is left entirely unchanged,
retaining the prior timestamp. -/
theorem shouldSuppress_cache_effect (c : Cache) (k : String) (now : Nat) :
    ((shouldSuppress c k now).1 = false ∧
      lookupCache k (shouldSuppress c k now).2 = some now)
    ∨ ((shouldSuppress c k now).1 = true ∧ (shouldSuppress c k now).2 = c) := by
  unfold shouldSuppress
  cases hl : lookupCache k c with
  | none => simp [lookupCache_setCache]
  | some last =>
      by_cases hw : (now : Int) - (last : Int) < 3000
      · simp [hw]
      · simp [hw, lookupCache_setCache]

/-- C8 counterexample: a suppressed call (prior timestamp 0, now 2000)
returns true but leaves the map still holding `key ↦ 0`, not `key ↦ 2000`
as the claim requires. -/
theorem shouldSuppress_claim_cex :
    (shouldSuppress [("k", 0)] "k" 2000).1 = true ∧
    (shouldSuppress [("k", 0)] "k" 2000).2 = [("k", 0)] ∧
    lookupCache "k" (shouldSuppress [("k", 0)] "k" 2000).2 ≠ some 2000 := by
  decide

/-- A group message in `sent` status with nobody having read it yet. -/
def cexGroupMsg : Message :=
  { id := 0, senderId := "s", receiverId := none, groupId := some "g",
    message := "hi", status := .sent, deliveredTo := [], readBy := [], createdAt := 0 }

/-- C4 (amended): for a group message, a read acknowledgment records the
user into `readBy` if absent (and is idempotent when present), but leaves
the coarse status unchanged — the handler's group branch never advances
`status` to `read`. -/
theorem ackRead_group_records_without_status (m : Message) (u : UserId) (now : Nat)
    (hg : m.groupId.isSome) :
    ((messageRead u now m).readBy.any (fun r => r.userId = u)) = true ∧
    (messageRead u now m).status = m.status ∧
    ((m.readBy.any (fun r => r.userId = u)) = true →
      (messageRead u now m).readBy = m.readBy) ∧
    ((m.readBy.any (fun r => r.userId = u)) = false →
      (messageRead u now m).readBy = m.readBy ++ [⟨u, now⟩]) := by
  obtain ⟨g, hgid⟩ := Option.isSome_iff_exists.mp hg
  by_cases hr : m.readBy.any (fun r => r.userId = u) = true
  · have hm : messageRead u now m = m := by simp [messageRead, hgid, hr]
    refine ⟨by rw [hm]; exact hr, by rw [hm], fun _ => by rw [hm], ?_⟩
    intro hfalse
    rw [hfalse] at hr
    exact Bool.noConfusion hr
  · have hm : messageRead u now m = { m with readBy := m.readBy ++ [⟨u, now⟩] } := by
      simp [messageRead, hgid, hr]
    refine ⟨?_, by rw [hm], fun htrue => absurd htrue hr, fun _ => by rw [hm]⟩
    rw [hm]
    simp [List.any_append]

/-- Witness for the C4 theorem at a concrete group message. -/
theorem ackRead_group_records_without_status_witness :
    cexGroupMsg.groupId.isSome ∧
    (messageRead "u" 1 cexGroupMsg).status = cexGroupMsg.status :=
  ⟨by decide, (ackRead_group_records_without_status cexGroupMsg "u" 1 (by decide)).2.1⟩

/-- C4 counterexample: the first read acknowledgment on a `sent` group
message records the reader but leaves the coarse status at `sent`, not
`read` as the claim requires. -/
theorem ackRead_group_claim_cex :
    (messageRead "u" 1 cexGroupMsg).readBy.map Ack.userId = ["u"] ∧
    (messageRead "u" 1 cexGroupMsg).status = Status.sent ∧
    (messageRead "u" 1 cexGroupMsg).status ≠ Status.read := by
  decide

/-- C10 (amended): when an acknowledgment finds the message and the sender
is online, the `messageStatusUpdate` event always names the
acknowledgment's own kind — `delivered` for a delivery ack, `read` for a
read ack — regardless of the message's stored or resulting status. -/
theorem ackNotification_names_ack_kind (st : ServerState) (mid : Nat) (u : UserId)
    (now : Nat) :
    (messageDeliveredHandler st mid u now).2.elim True
      (fun e => e.status = Status.delivered) ∧
    (messageReadHandler st mid u now).2.elim True
      (fun e => e.status = Status.read) := by
  constructor
  · unfold messageDeliveredHandler
    cases hf : st.store.find? (fun m => m.id = mid) with
    | none => simp
    | some m =>
        cases hk : lookupKey m.senderId st.onlineUsers with
        | none => simp [hk]
        | some sock => simp [hk]
  · unfold messageReadHandler
    cases hf : st.store.find? (fun m => m.id = mid) with
    | none => simp
    | some m =>
        cases hk : lookupKey m.senderId st.onlineUsers with
        | none => simp [hk]
        | some sock => simp [hk]

/-- A state holding a direct message already in `read` status whose sender
is online. -/
def cexReadState : ServerState :=
  { onlineUsers := [("s", "ss")], messageCache := [], groups := [],
    store := [{ id := 0, senderId := "s", receiverId := some "r", groupId := none,
                message := "hi", status := .read, deliveredTo := [], readBy := [],
                createdAt := 0 }],
    nextId := 1 }

/-- C10 counterexample: a delivery acknowledgment applied as a no-op to a
message already in `read` still notifies the online sender with status
`delivered`, which is earlier than the message's stored (and resulting)
status `read`. -/
theorem ackNotification_claim_cex :
    (messageDeliveredHandler cexReadState 0 "u" 5).2 =
      some { toSocket := "ss", messageId := 0, status := Status.delivered } ∧
    (messageDeliveredHandler cexReadState 0 "u" 5).1.store.map Message.status =
      [Status.read] ∧
    Status.delivered ≠ Status.read := by
  decide

/-- A server state with nothing online, nothing cached and nothing stored. -/
def emptyState : ServerState :=
  { onlineUsers := [], messageCache := [], groups := [], store := [], nextId := 0 }

/-- C2 (amended): duplicate suppression applies only to group sends — two
group sends with the same sender, group and body less than 3000 ms apart
persist exactly one message, and the same pair spaced at least 3000 ms
apart persists two — while direct sends are never suppressed: two identical
direct sends persist two messages regardless of spacing. -/
theorem send_duplicate_suppression (st : ServerState) (s g r b : String) (t1 t2 : Nat)
    (hg : g ≠ "") (hb : b ≠ "") (hr : r ≠ "")
    (hfresh : lookupCache (mkCacheKey s g b) st.messageCache = none) :
    (t1 ≤ t2 ∧ t2 - t1 < 3000 →
      (sendGroupMessage s g b t2 (sendGroupMessage s g b t1 st)).store.length
        = st.store.length + 1) ∧
    (3000 ≤ t2 - t1 →
      (sendGroupMessage s g b t2 (sendGroupMessage s g b t1 st)).store.length
        = st.store.length + 2) ∧
    (sendMessage s r b t2 (sendMessage s r b t1 st)).store.length
      = st.store.length + 2 := by
  have hsup1 : (shouldSuppress st.messageCache (mkCacheKey s g b) t1).1 = false := by
    rw [shouldSuppress_none st.messageCache (mkCacheKey s g b) t1 hfresh]
  set st1 := sendGroupMessage s g b t1 st with hst1
  have h1 := sendGroupMessage_allowed st s g b t1 hg hb hsup1
  rw [← hst1] at h1
  have hlook2 : lookupCache (mkCacheKey s g b) st1.messageCache = some t1 := by
    rw [h1.2]
    exact lookupCache_setCache _ _ _
  refine ⟨?_, ?_, ?_⟩
  · rintro ⟨hle, hw⟩
    have hsup2 : (shouldSuppress st1.messageCache (mkCacheKey s g b) t2).1 = true := by
      rw [shouldSuppress_some st1.messageCache (mkCacheKey s g b) t2 t1 hlook2,
        if_pos (show (t2 : Int) - (t1 : Int) < 3000 by omega)]
    rw [sendGroupMessage_suppressed_store st1 s g b t2 hsup2]
    exact h1.1
  · intro hw
    have hsup2 : (shouldSuppress st1.messageCache (mkCacheKey s g b) t2).1 = false := by
      rw [shouldSuppress_some st1.messageCache (mkCacheKey s g b) t2 t1 hlook2,
        if_neg (show ¬((t2 : Int) - (t1 : Int) < 3000) by omega)]
    rw [(sendGroupMessage_allowed st1 s g b t2 hg hb hsup2).1, h1.1]
  · simp [sendMessage, hr, hb]

/-- Witness for the C2 theorem: from the empty state, a group send repeated
1000 ms later persists exactly one message. -/
theorem send_duplicate_suppression_witness :
    (("g" : String) ≠ "" ∧ ("hi" : String) ≠ "" ∧ ("r" : String) ≠ "" ∧
      lookupCache (mkCacheKey "s" "g" "hi") emptyState.messageCache = none) ∧
    ((0 : Nat) ≤ 1000 ∧ (1000 : Nat) - 0 < 3000) ∧
    (sendGroupMessage "s" "g" "hi" 1000
        (sendGroupMessage "s" "g" "hi" 0 emptyState)).store.length
      = emptyState.store.length + 1 :=
  ⟨⟨by decide, by decide, by decide, by decide⟩, ⟨by decide, by decide⟩,
    (send_duplicate_suppression emptyState "s" "g" "r" "hi" 0 1000
      (by decide) (by decide) (by decide) (by decide)).1 ⟨by decide, by decide⟩⟩

/-- C2 counterexample: two identical direct sends 1000 ms apart (< 3000 ms)
persist two messages, not the single message the claim requires; the
direct send path of chat.controller.js has no duplicate check. -/
theorem send_duplicate_claim_cex :
    (sendMessage "s" "r" "hi" 1000 (sendMessage "s" "r" "hi" 0 emptyState)).store.length
      = 2 ∧ (2 : Nat) ≠ 1 := by
  decide

theorem groupDeliveredTo_map (reg : Registry) (s : UserId) (now : Nat) :
    (groupDeliveredTo reg s now).map Ack.userId
      = (reg.map Prod.fst).filter (fun x => x ≠ s) := by
  induction reg with
  | nil => rfl
  | cons p rest ih =>
      by_cases hp : p.1 = s
      · simp [groupDeliveredTo, List.filterMap_cons, hp]
        simpa [groupDeliveredTo] using ih
      · simp [groupDeliveredTo, List.filterMap_cons, hp]
        simpa [groupDeliveredTo] using ih

/-- An allowed group send appends exactly the message built from
`groupDeliveredTo` over the presence map. -/
theorem sendGroupMessage_store_eq (st : ServerState) (s g b : String) (now : Nat)
    (hg : g ≠ "") (hb : b ≠ "")
    (hsup : (shouldSuppress st.messageCache (mkCacheKey s g b) now).1 = false) :
    (sendGroupMessage s g b now st).store = st.store ++
      [{ id := st.nextId, senderId := s, receiverId := none, groupId := some g,
         message := b,
         status := if (groupDeliveredTo st.onlineUsers s now).length > 0
                   then Status.delivered else Status.sent,
         deliveredTo := groupDeliveredTo st.onlineUsers s now, readBy := [],
         createdAt := now }] := by
  simp [sendGroupMessage, hg, hb, hsup]

/-- C3 (amended): a non-suppressed valid group send persists exactly one
message whose `deliveredTo` lists exactly the currently *online users*
other than the sender — all online users, group members or not — each at
most once (given the presence map's unique keys), with status `delivered`
iff that list is non-empty and `sent` iff it is empty. -/
theorem sendGroupMessage_deliveredTo_spec (st : ServerState) (s g b : String) (now : Nat)
    (hg : g ≠ "") (hb : b ≠ "")
    (hfresh : lookupCache (mkCacheKey s g b) st.messageCache = none)
    (hnodup : (st.onlineUsers.map Prod.fst).Nodup) :
    ∃ msg, (sendGroupMessage s g b now st).store = st.store ++ [msg] ∧
      msg.deliveredTo.map Ack.userId
        = (st.onlineUsers.map Prod.fst).filter (fun x => x ≠ s) ∧
      (msg.deliveredTo.map Ack.userId).Nodup ∧
      (msg.status = Status.delivered ↔ msg.deliveredTo ≠ []) ∧
      (msg.status = Status.sent ↔ msg.deliveredTo = []) := by
  have hsup : (shouldSuppress st.messageCache (mkCacheKey s g b) now).1 = false := by
    rw [shouldSuppress_none _ _ _ hfresh]
  refine ⟨{ id := st.nextId, senderId := s, receiverId := none, groupId := some g,
            message := b,
            status := if (groupDeliveredTo st.onlineUsers s now).length > 0
                      then Status.delivered else Status.sent,
            deliveredTo := groupDeliveredTo st.onlineUsers s now, readBy := [],
            createdAt := now },
    sendGroupMessage_store_eq st s g b now hg hb hsup, ?_, ?_, ?_, ?_⟩
  · exact groupDeliveredTo_map st.onlineUsers s now
  · rw [groupDeliveredTo_map st.onlineUsers s now]
    exact hnodup.filter _
  · show (if (groupDeliveredTo st.onlineUsers s now).length > 0
          then Status.delivered else Status.sent) = Status.delivered
      ↔ groupDeliveredTo st.onlineUsers s now ≠ []
    by_cases hlen : (groupDeliveredTo st.onlineUsers s now).length > 0
    · rw [if_pos hlen]
      exact iff_of_true rfl (List.length_pos.mp hlen)
    · rw [if_neg hlen]
      refine iff_of_false (by decide) ?_
      intro hne
      exact hne (List.length_eq_zero.mp (Nat.eq_zero_of_not_pos hlen))
  · show (if (groupDeliveredTo st.onlineUsers s now).length > 0
          then Status.delivered else Status.sent) = Status.sent
      ↔ groupDeliveredTo st.onlineUsers s now = []
    by_cases hlen : (groupDeliveredTo st.onlineUsers s now).length > 0
    · rw [if_pos hlen]
      refine iff_of_false (by decide) ?_
      intro hnil
      rw [hnil] at hlen
      exact absurd hlen (by decide)
    · rw [if_neg hlen]
      exact iff_of_true rfl (List.length_eq_zero.mp (Nat.eq_zero_of_not_pos hlen))

/-- Three users online besides nobody special; the sender "s" is online
too, and all of them are members of group "g". -/
def onlineThreeState : ServerState :=
  { onlineUsers := [("x", "sx"), ("s", "ss"), ("y", "sy")], messageCache := [],
    groups := [("g", ["s", "x", "y"])], store := [], nextId := 0 }

/-- Witness for the C3 theorem: a group send from a state with online users
persists exactly one message. -/
theorem sendGroupMessage_deliveredTo_spec_witness :
    (("g" : String) ≠ "" ∧ ("hi" : String) ≠ "" ∧
      lookupCache (mkCacheKey "s" "g" "hi") onlineThreeState.messageCache = none ∧
      (onlineThreeState.onlineUsers.map Prod.fst).Nodup) ∧
    (sendGroupMessage "s" "g" "hi" 0 onlineThreeState).store.length
      = onlineThreeState.store.length + 1 := by
  obtain ⟨msg, hstore, -, -, -, -⟩ := sendGroupMessage_deliveredTo_spec onlineThreeState
    "s" "g" "hi" 0 (by decide) (by decide) (by decide) (by decide)
  refine ⟨⟨by decide, by decide, by decide, by decide⟩, ?_⟩
  rw [hstore]
  simp

/-- A state where the only online user "x" is not a member of group "g". -/
def nonMemberOnlineState : ServerState :=
  { onlineUsers := [("x", "sockx")], messageCache := [], groups := [("g", ["s"])],
    store := [], nextId := 0 }

/-- C3 counterexample: sending to group "g" (whose sole member is the
sender) while non-member "x" is online yields `deliveredTo = ["x"]` and
status `delivered`, though the set of online members of the group other
than the sender is empty — the claim requires `deliveredTo` empty and
status `sent` here. -/
theorem sendGroupMessage_members_cex :
    ((sendGroupMessage "s" "g" "hi" 0 nonMemberOnlineState).store.map
        (fun m => m.deliveredTo.map Ack.userId)) = [["x"]] ∧
    ((groupMembers nonMemberOnlineState "g").contains "x") = false ∧
    ((sendGroupMessage "s" "g" "hi" 0 nonMemberOnlineState).store.map Message.status)
      = [Status.delivered] := by
  decide

/-- C5 (amended): only the group history fetch is timeout-bounded — when
its storage operations exceed the budget it answers with a successful
empty page (zero messages, zero totals, `hasMore` false), never an error —
while the direct-pair fetch runs no timeout race, so its response is the
normal completed result regardless of how long the storage operations
take. -/
theorem history_timeout_behavior (st : ServerState) (g a b : String) (page limit : Nat) :
    (getGroupMessages st g page limit true).1
      = { messages := [], currentPage := page, totalPages := 0, totalMessages := 0,
          hasMore := false } ∧
    (getMessages st a b page limit true).1 = (getMessages st a b page limit false).1 :=
  ⟨rfl, rfl⟩

/-- A state holding one direct message from "b" to "a" still in `sent`. -/
def pendingDirectState : ServerState :=
  { onlineUsers := [], messageCache := [], groups := [],
    store := [{ id := 0, senderId := "b", receiverId := some "a", groupId := none,
                message := "hi", status := .sent, deliveredTo := [], readBy := [],
                createdAt := 0 }],
    nextId := 1 }

/-- C5 counterexample: a direct-pair fetch whose storage operations outran
the latency budget still returns the full, non-empty result — one message
and `totalMessages` 1 — not the successful empty page (zero messages,
`totalMessages` 0) the claim requires for every history fetch. -/
theorem history_timeout_claim_cex :
    (getMessages pendingDirectState "a" "b" 1 50 true).1.totalMessages = 1 ∧
    (getMessages pendingDirectState "a" "b" 1 50 true).1.messages ≠ [] := by
  decide

/-- The relation between a stored message before and after a direct-pair
history fetch: every field except `status` is unchanged, and `status`
either is unchanged or moved `sent → delivered` on a message addressed to
the requesting user. -/
def FrameRel (requesterId : UserId) (m m' : Message) : Prop :=
  m'.id = m.id ∧ m'.senderId = m.senderId ∧ m'.receiverId = m.receiverId ∧
  m'.groupId = m.groupId ∧ m'.message = m.message ∧ m'.createdAt = m.createdAt ∧
  m'.deliveredTo = m.deliveredTo ∧ m'.readBy = m.readBy ∧
  (m'.status = m.status ∨
    (m.status = Status.sent ∧ m'.status = Status.delivered ∧
      m.receiverId = some requesterId))

theorem frameRel_self (a : UserId) (m : Message) : FrameRel a m m :=
  ⟨rfl, rfl, rfl, rfl, rfl, rfl, rfl, rfl, Or.inl rfl⟩

/-- C6 (amended): a group history fetch leaves the server state untouched,
and a direct-pair fetch leaves every message's identity, body, timestamps,
`deliveredTo` and `readBy` unchanged — the only mutation a history read
performs is the read-implies-delivered side update, advancing `status`
from `sent` to `delivered` on fetched messages addressed to the requester;
all other mutation comes from the acknowledgment operations. -/
theorem historyReader_frame (st : ServerState) (a b g : String) (page limit : Nat)
    (t1 t2 : Bool)
    (hids : st.store.Pairwise (fun x y => x.id ≠ y.id)) :
    (getGroupMessages st g page limit t2).2 = st ∧
    List.Forall₂ (FrameRel a) st.store ((getMessages st a b page limit t1).2.store) ∧
    (getMessages st a b page limit t1).2.onlineUsers = st.onlineUsers ∧
    (getMessages st a b page limit t1).2.messageCache = st.messageCache ∧
    (getMessages st a b page limit t1).2.groups = st.groups := by
  refine ⟨by cases t2 <;> rfl, ?_, rfl, rfl, rfl⟩
  show List.Forall₂ (FrameRel a) st.store (historyStoreUpdate st a b page limit)
  unfold historyStoreUpdate
  apply forall2_map_self
  intro m hm
  by_cases hc : m.id ∈ historyUndeliveredIds st a b page limit ∧ m.status = Status.sent
  · rw [if_pos hc]
    obtain ⟨hid, hsent⟩ := hc
    obtain ⟨m₂, hm₂, hid₂⟩ := List.mem_map.mp hid
    have hm₂page : m₂ ∈ historyPage st a b page limit := (List.mem_filter.mp hm₂).1
    have hq := of_decide_eq_true (List.mem_filter.mp hm₂).2
    have hm₂store : m₂ ∈ st.store := by
      have h₁ : m₂ ∈ ((sortDesc (st.store.filter (directPairMatch a b))).drop
          ((page - 1) * limit)).take limit := List.mem_reverse.mp hm₂page
      have h₂ : m₂ ∈ sortDesc (st.store.filter (directPairMatch a b)) :=
        (List.Sublist.trans (List.take_sublist _ _) (List.drop_sublist _ _)).subset h₁
      exact (List.mem_filter.mp (mem_sortDesc h₂)).1
    have hmm : m₂ = m := eq_of_id_eq hids hm₂store hm hid₂
    refine ⟨rfl, rfl, rfl, rfl, rfl, rfl, rfl, rfl, Or.inr ⟨hsent, rfl, ?_⟩⟩
    rw [← hmm]
    exact hq.1
  · rw [if_neg hc]
    exact frameRel_self a m

/-- Witness for the C6 theorem at a store with one pending direct message. -/
theorem historyReader_frame_witness :
    pendingDirectState.store.Pairwise (fun x y => x.id ≠ y.id) ∧
    List.Forall₂ (FrameRel "a") pendingDirectState.store
      ((getMessages pendingDirectState "a" "b" 1 50 false).2.store) :=
  ⟨by decide, (historyReader_frame pendingDirectState "a" "b" "g" 1 50 false false
      (by decide)).2.1⟩

/-- C6 counterexample: a direct-pair history fetch by the recipient
advances the stored message's status from `sent` to `delivered` — the
fetch does mutate the message, contrary to the claim that a history read
never changes stored fields. -/
theorem historyReader_frame_cex :
    ((getMessages pendingDirectState "a" "b" 1 50 false).2.store.map Message.status)
      = [Status.delivered] ∧
    (pendingDirectState.store.map Message.status) = [Status.sent] := by
  decide

theorem page_pairwise (l : List Message) (page limit : Nat) :
    (pageSlice l page limit).Pairwise (fun x y => x.createdAt ≤ y.createdAt) := by
  have h₂ : (((sortDesc l).drop ((page - 1) * limit)).take limit).Pairwise
      (fun x y => y.createdAt ≤ x.createdAt) :=
    List.Pairwise.sublist
      (List.Sublist.trans (List.take_sublist _ _) (List.drop_sublist _ _))
      (sortDesc_pairwise l)
  exact List.pairwise_reverse.mpr h₂

/-- C7: every history page — direct, or group when the query completes — is
exactly the requested skip/limit slice of the newest-first ordering of the
matched messages, reversed before being returned; hence within each
returned page `createdAt` is non-decreasing (oldest to newest). -/
theorem history_page_ordered (st : ServerState) (a b g : String) (page limit : Nat)
    (t1 t2 : Bool) :
    ((getMessages st a b page limit t1).1.messages).Pairwise
      (fun x y => x.createdAt ≤ y.createdAt) ∧
    ((getGroupMessages st g page limit t2).1.messages).Pairwise
      (fun x y => x.createdAt ≤ y.createdAt) ∧
    (getMessages st a b page limit t1).1.messages
      = pageSlice (st.store.filter (directPairMatch a b)) page limit := by
  refine ⟨page_pairwise _ page limit, ?_, rfl⟩
  cases t2 with
  | false => exact page_pairwise _ page limit
  | true => exact List.Pairwise.nil

end GroupChat
